import Mathlib

/-!
Shallow embedding of `src/deck.rs`: a standard 52-card deck domain model
with suits, ranks, cards, parsing, two display styles, a same-suit partial
comparison on cards, and uniform random sampling.
-/

/-- The four suits of `enum Suit`. -/
inductive Suit where
  | Clubs
  | Diamonds
  | Hearts
  | Spades
deriving DecidableEq, Fintype

/-- `Suit::ALL`: the fixed 4-element enumeration of suits. -/
def Suit.ALL : List Suit := [Suit.Clubs, Suit.Diamonds, Suit.Hearts, Suit.Spades]

/-- The Unicode suit glyph used by normal (symbolic) Display formatting. -/
def Suit.symbol : Suit → String
  | Suit.Clubs => "♣"
  | Suit.Diamonds => "♦"
  | Suit.Hearts => "♥"
  | Suit.Spades => "♠"

/-- The derived Debug name of a suit, used by alternate (`{:#}`) formatting. -/
def Suit.debug_name : Suit → String
  | Suit.Clubs => "Clubs"
  | Suit.Diamonds => "Diamonds"
  | Suit.Hearts => "Hearts"
  | Suit.Spades => "Spades"

/-- `impl fmt::Display for Suit`: alternate formatting gives the Debug name,
normal formatting gives the suit symbol. -/
def Suit.fmt (alternate : Bool) (s : Suit) : String :=
  if alternate then s.debug_name else s.symbol

/-- The parse-failure error enum `Error`, carrying the offending input text. -/
inductive Error where
  | ParseSuit (text : String)
  | ParseRank (text : String)
deriving DecidableEq

deriving instance DecidableEq for Except

/-- Models Rust `str::to_lowercase` (on the inputs this module matches —
ASCII names, letters and digits, and suit glyphs — Unicode lowercasing
agrees with ASCII lowercasing, and the glyphs are unchanged). -/
def rust_to_lowercase (s : String) : String :=
  String.mk (s.data.map Char.toLower)

/-- `impl str::FromStr for Suit`: case-insensitive match of the glyph
(filled or outline), the first letter, or the name (singular or plural);
otherwise `Error::ParseSuit` carrying the original string. -/
def Suit.from_str (s : String) : Except Error Suit :=
  match rust_to_lowercase s with
  | "♣" | "♧" | "c" | "club" | "clubs" => Except.ok Suit.Clubs
  | "♦" | "♢" | "d" | "diamond" | "diamonds" => Except.ok Suit.Diamonds
  | "♥" | "♡" | "h" | "heart" | "hearts" => Except.ok Suit.Hearts
  | "♠" | "♤" | "s" | "spade" | "spades" => Except.ok Suit.Spades
  | _ => Except.error (Error.ParseSuit s)

/-- `impl Distribution<Suit> for Standard`: the sampler draws an index
uniformly from `0..Suit::ALL.len()` and returns `Suit::ALL[index]`.
The embedding is the indexing function on the uniformly drawn index. -/
def Suit.sample (i : Fin 4) : Suit :=
  Suit.ALL.get (Fin.cast (by decide) i)

/-- The thirteen ranks of `enum Rank`, declared `Two = 2` with the later
discriminants assigned by auto-increment up to `Ace = 14`. -/
inductive Rank where
  | Two
  | Three
  | Four
  | Five
  | Six
  | Seven
  | Eight
  | Nine
  | Ten
  | Jack
  | Queen
  | King
  | Ace
deriving DecidableEq, Fintype

/-- `Rank::ALL`: the fixed 13-element enumeration of ranks. -/
def Rank.ALL : List Rank :=
  [Rank.Two, Rank.Three, Rank.Four, Rank.Five, Rank.Six, Rank.Seven, Rank.Eight,
   Rank.Nine, Rank.Ten, Rank.Jack, Rank.Queen, Rank.King, Rank.Ace]

/-- The enum discriminant of a rank (`*self as u8`): `Two = 2` through
`Ace = 14` by auto-increment. The spec calls this the rank's ordinal. -/
def Rank.ordinal : Rank → Nat
  | Rank.Two => 2
  | Rank.Three => 3
  | Rank.Four => 4
  | Rank.Five => 5
  | Rank.Six => 6
  | Rank.Seven => 7
  | Rank.Eight => 8
  | Rank.Nine => 9
  | Rank.Ten => 10
  | Rank.Jack => 11
  | Rank.Queen => 12
  | Rank.King => 13
  | Rank.Ace => 14

/-- `Rank::face_card`: `10 < value && value <= 13` on the discriminant. -/
def Rank.face_card (r : Rank) : Bool :=
  decide (10 < r.ordinal) && decide (r.ordinal ≤ 13)

/-- The derived Debug name of a rank, used by alternate formatting and as
the source of the single-letter short form of the face ranks. -/
def Rank.debug_name : Rank → String
  | Rank.Two => "Two"
  | Rank.Three => "Three"
  | Rank.Four => "Four"
  | Rank.Five => "Five"
  | Rank.Six => "Six"
  | Rank.Seven => "Seven"
  | Rank.Eight => "Eight"
  | Rank.Nine => "Nine"
  | Rank.Ten => "Ten"
  | Rank.Jack => "Jack"
  | Rank.Queen => "Queen"
  | Rank.King => "King"
  | Rank.Ace => "Ace"

/-- `impl fmt::Display for Rank`: alternate formatting gives the Debug
name; normal formatting gives the decimal discriminant when it is at most
10, and otherwise the first character (`debug_name[0..1]`) of the Debug
name. -/
def Rank.fmt (alternate : Bool) (r : Rank) : String :=
  if alternate then r.debug_name
  else if r.ordinal ≤ 10 then toString r.ordinal
  else r.debug_name.take 1

/-- `impl str::FromStr for Rank`: case-insensitive match of a number, a
single letter, or the rank name in words (with synonyms deuce, trey,
knave); otherwise `Error::ParseRank` carrying the original string. -/
def Rank.from_str (s : String) : Except Error Rank :=
  match rust_to_lowercase s with
  | "1" | "14" | "one" | "a" | "ace" => Except.ok Rank.Ace
  | "2" | "two" | "d" | "deuce" => Except.ok Rank.Two
  | "3" | "three" | "trey" => Except.ok Rank.Three
  | "4" | "four" => Except.ok Rank.Four
  | "5" | "five" => Except.ok Rank.Five
  | "6" | "six" => Except.ok Rank.Six
  | "7" | "seven" => Except.ok Rank.Seven
  | "8" | "eight" => Except.ok Rank.Eight
  | "9" | "nine" => Except.ok Rank.Nine
  | "10" | "ten" | "t" => Except.ok Rank.Ten
  | "11" | "jack" | "knave" | "j" => Except.ok Rank.Jack
  | "12" | "queen" | "q" => Except.ok Rank.Queen
  | "13" | "king" | "k" => Except.ok Rank.King
  | _ => Except.error (Error.ParseRank s)

/-- The derived `Ord` on `Rank` compares enum discriminants as integers. -/
def Rank.cmp (a b : Rank) : Ordering :=
  compare a.ordinal b.ordinal

/-- `impl Distribution<Rank> for Standard`: the sampler draws an index
uniformly from `0..Rank::ALL.len()` and returns `Rank::ALL[index]`. -/
def Rank.sample (i : Fin 13) : Rank :=
  Rank.ALL.get (Fin.cast (by decide) i)

/-- `struct Card`: a rank paired with a suit; the field projections embed
the `rank()` and `suit()` getters. -/
structure Card where
  rank : Rank
  suit : Suit
deriving DecidableEq, Fintype

/-- `impl PartialOrd for Card::partial_cmp`: cards of the same suit compare
by rank (derived `Ord`, i.e. by discriminant); different suits give `None`. -/
def Card.partial_cmp (self other : Card) : Option Ordering :=
  if self.suit = other.suit then some (Rank.cmp self.rank other.rank) else none

/-- `impl From<(Rank, Suit)> for Card`. -/
def Card.fromRankSuit : Rank × Suit → Card
  | (rank, suit) => ⟨rank, suit⟩

/-- `impl From<(Suit, Rank)> for Card`. -/
def Card.fromSuitRank : Suit × Rank → Card
  | (suit, rank) => ⟨rank, suit⟩

/-- `impl Distribution<Card> for Standard`: two independent draws, one by
the Rank sampler and one by the Suit sampler, composed into a card. -/
def Card.sample (ri : Fin 13) (si : Fin 4) : Card :=
  ⟨Rank.sample ri, Suit.sample si⟩

/-!
Theorems settling the claims about the module.
-/

/-- C1: card comparison is a partial order restricted to same-suit pairs —
cards of different suits are incomparable in both directions, and cards of
the same suit compare exactly as their ranks do. -/
theorem card_partial_cmp_same_suit_only (a b : Card) :
    (a.suit ≠ b.suit → Card.partial_cmp a b = none ∧ Card.partial_cmp b a = none) ∧
    (a.suit = b.suit → Card.partial_cmp a b = some (Rank.cmp a.rank b.rank)) := by
  constructor
  · intro h
    unfold Card.partial_cmp
    rw [if_neg h, if_neg (fun h2 => h h2.symm)]
    exact ⟨rfl, rfl⟩
  · intro h
    unfold Card.partial_cmp
    rw [if_pos h]

/-- Witness for C1 at concrete cards: five of hearts versus seven of spades
is incomparable, five of hearts is below seven of hearts. -/
theorem card_partial_cmp_same_suit_only_witness :
    Card.partial_cmp ⟨Rank.Five, Suit.Hearts⟩ ⟨Rank.Seven, Suit.Spades⟩ = none ∧
    Card.partial_cmp ⟨Rank.Five, Suit.Hearts⟩ ⟨Rank.Seven, Suit.Hearts⟩ = some Ordering.lt :=
  ⟨((card_partial_cmp_same_suit_only ⟨Rank.Five, Suit.Hearts⟩ ⟨Rank.Seven, Suit.Spades⟩).1
      (by decide)).1,
   ((card_partial_cmp_same_suit_only ⟨Rank.Five, Suit.Hearts⟩ ⟨Rank.Seven, Suit.Hearts⟩).2
      rfl).trans (by decide)⟩

/-- C2 counterexample: the claim puts every ordinal in 2..13 with Ace at 13,
but the enum discriminant of Ace is 14 (auto-increment from `Two = 2`). -/
theorem rank_ace_ordinal_is_14_not_13 :
    Rank.ordinal Rank.Ace = 14 ∧ Rank.ordinal Rank.Ace ≠ 13 := by decide

/-- C2 amended: every rank carries a fixed numeric ordinal in the range 2 to
14, strictly increasing along the canonical order Two through Ace, with Ace
having ordinal 14. -/
theorem rank_ordinal_range_and_increasing :
    List.Pairwise (fun x y => x < y) (Rank.ALL.map Rank.ordinal) ∧
    (∀ r : Rank, 2 ≤ Rank.ordinal r ∧ Rank.ordinal r ≤ 14) ∧
    Rank.ordinal Rank.Ace = 14 := by decide

/-- C3: suit formatting and parsing round-trip in both the symbolic
(normal) and verbose (alternate) styles. -/
theorem suit_display_parse_roundtrip :
    ∀ s : Suit, Suit.from_str (Suit.fmt false s) = Except.ok s ∧
      Suit.from_str (Suit.fmt true s) = Except.ok s := by decide

/-- C4: parsing the verbose rendering of a rank returns the rank; the
compact rendering is the decimal ordinal as text for ordinals at most 10,
and for the four higher ranks it is the single first letter of the verbose
name, one of J, Q, K, A. -/
theorem rank_display_parse_roundtrip_and_compact (r : Rank) :
    Rank.from_str (Rank.fmt true r) = Except.ok r ∧
    (Rank.ordinal r ≤ 10 → Rank.fmt false r = toString (Rank.ordinal r)) ∧
    (10 < Rank.ordinal r →
      Rank.fmt false r = (Rank.fmt true r).take 1 ∧
      Rank.fmt false r ∈ (["J", "Q", "K", "A"] : List String)) := by
  cases r <;>
    first
      | exact ⟨by decide, fun _ => by decide, fun h => absurd h (by decide)⟩
      | exact ⟨by decide, fun h => absurd h (by decide), fun _ => by decide⟩

/-- Witness for C4 at Seven (pip rank) and Jack (face rank). -/
theorem rank_display_parse_roundtrip_and_compact_witness :
    Rank.from_str (Rank.fmt true Rank.Seven) = Except.ok Rank.Seven ∧
    Rank.fmt false Rank.Seven = toString (Rank.ordinal Rank.Seven) ∧
    Rank.fmt false Rank.Jack = (Rank.fmt true Rank.Jack).take 1 :=
  ⟨(rank_display_parse_roundtrip_and_compact Rank.Seven).1,
   (rank_display_parse_roundtrip_and_compact Rank.Seven).2.1 (by decide),
   ((rank_display_parse_roundtrip_and_compact Rank.Jack).2.2 (by decide)).1⟩

/-- C5: the face-card predicate holds for exactly Jack, Queen and King, and
in particular not for Ace. -/
theorem rank_face_card_iff_jack_queen_king :
    (∀ r : Rank, Rank.face_card r = true ↔ (r = Rank.Jack ∨ r = Rank.Queen ∨ r = Rank.King)) ∧
    Rank.face_card Rank.Ace = false := by decide

/-- C6: every string either parses, or fails with the error kind of the
type being parsed carrying the original input verbatim (not lower-cased);
in particular parsing the string f fails for both Suit and Rank carrying
the text f, and the mixed-case string F is carried un-lowercased. -/
theorem parse_failure_carries_verbatim_input :
    (∀ s : String, (∃ v, Suit.from_str s = Except.ok v) ∨
      Suit.from_str s = Except.error (Error.ParseSuit s)) ∧
    (∀ s : String, (∃ v, Rank.from_str s = Except.ok v) ∨
      Rank.from_str s = Except.error (Error.ParseRank s)) ∧
    Suit.from_str "f" = Except.error (Error.ParseSuit "f") ∧
    Rank.from_str "f" = Except.error (Error.ParseRank "f") ∧
    Suit.from_str "F" = Except.error (Error.ParseSuit "F") ∧
    Rank.from_str "F" = Except.error (Error.ParseRank "F") := by
  refine ⟨fun s => ?_, fun s => ?_, by decide, by decide, by decide, by decide⟩
  · unfold Suit.from_str
    split <;> first | exact Or.inl ⟨_, rfl⟩ | exact Or.inr rfl
  · unfold Rank.from_str
    split <;> first | exact Or.inl ⟨_, rfl⟩ | exact Or.inr rfl

/-- C7: card construction is argument-order-independent and the accessors
return the given components. -/
theorem card_from_argument_order_independent :
    ∀ (r : Rank) (s : Suit),
      Card.fromRankSuit (r, s) = Card.fromSuitRank (s, r) ∧
      (Card.fromRankSuit (r, s)).rank = r ∧ (Card.fromRankSuit (r, s)).suit = s :=
  fun _ _ => ⟨rfl, rfl, rfl⟩

/-- C8: rank comparison is a total order agreeing with the ordinal mapping
(it equals comparison of ordinals, detects equality exactly, and is
antisymmetric between lt and gt), and every rank is at most Ace. -/
theorem rank_cmp_total_order_by_ordinal_ace_highest :
    (∀ a b : Rank, Rank.cmp a b = compare (Rank.ordinal a) (Rank.ordinal b)) ∧
    (∀ a b : Rank, Rank.cmp a b = Ordering.eq ↔ a = b) ∧
    (∀ a b : Rank, Rank.cmp a b = Ordering.lt ↔ Rank.cmp b a = Ordering.gt) ∧
    (∀ r : Rank, Rank.cmp r Rank.Ace = Ordering.lt ∨ Rank.cmp r Rank.Ace = Ordering.eq) := by
  decide

set_option maxRecDepth 2048 in
/-- C9: the Suit sampler is a bijection from the 4 uniformly drawn indices
onto the suits (each suit listed exactly once), the Rank sampler likewise
for the 13 ranks, and the Card sampler composes the two independent draws
componentwise, reaching all 52 cards bijectively. -/
theorem sampling_uniform_independent :
    Function.Bijective Suit.sample ∧
    Function.Bijective Rank.sample ∧
    (∀ s : Suit, Suit.ALL.count s = 1) ∧
    (∀ r : Rank, Rank.ALL.count r = 1) ∧
    (∀ (ri : Fin 13) (si : Fin 4),
      (Card.sample ri si).rank = Rank.sample ri ∧
      (Card.sample ri si).suit = Suit.sample si) ∧
    Function.Bijective (fun p : Fin 13 × Fin 4 => Card.sample p.1 p.2) := by
  decide

/-- C10: rank parsing also accepts the numeric strings 11, 12, 13 for Jack,
Queen, King, and the word one for Ace, case-insensitively. -/
theorem rank_parse_numeric_synonyms :
    Rank.from_str "11" = Except.ok Rank.Jack ∧
    Rank.from_str "12" = Except.ok Rank.Queen ∧
    Rank.from_str "13" = Except.ok Rank.King ∧
    Rank.from_str "one" = Except.ok Rank.Ace ∧
    Rank.from_str "One" = Except.ok Rank.Ace ∧
    Rank.from_str "ONE" = Except.ok Rank.Ace := by decide
